import Mathlib

/-!
Verification of the stage-pipeline controller of the Dilemma-Triangle →
Business-Model-Canvas application (`app.py`).

The application is a Streamlit script that re-runs top to bottom on every
interaction.  Its controller state lives in `st.session_state`
(`step_index`, `conversation`, `story`, `completed`) and is mutated by four
user-driven events: submitting the story, the implicit "generate if not
already done" pass, refining the current step with feedback, and approving
the current step.  We embed that state and those four events shallowly:
the generative backend (`model.generate_content` followed by the
`hasattr(response, "text")` check) is modelled as an oracle
`String → Option String` carried by the event, where `none` stands for a
reply without usable text.
-/

/-- One entry of `st.session_state.conversation`: the dictionary
`{"step": …, "prompt": …, "response": …, "feedback": …}` appended by the
handlers in `app.py`. -/
structure StageRecord where
  step : String
  prompt : String
  response : String
  feedback : String
deriving DecidableEq

/-- The controller state kept in `st.session_state` by `app.py`:
`step_index`, `conversation`, `story` and the `completed` flag. -/
structure PipelineState where
  step_index : Nat
  conversation : List StageRecord
  story : String
  completed : Bool
deriving DecidableEq

/-- The session-state initialisation block of `app.py` (lines 122-129):
`step_index = 0`, `conversation = []`, `story = ""`, `completed = False`. -/
def initState : PipelineState :=
  { step_index := 0, conversation := [], story := "", completed := false }

/-- The `STEPS` list of `app.py` (lines 19-28), identical in the
`app - very Good.py` variant. -/
def STEPS : List String :=
  ["Story Input",
   "Focus Generation",
   "Issues Generation",
   "Tension Matrix",
   "Dilemmas & Ranking",
   "Value Propositions",
   "SWOT Analysis",
   "Business Model Canvas"]

/-- The `PROMPTS` dictionary of `app.py` (lines 33-117); `PROMPTS.get(k, "")`
is modelled as `(PROMPTS k).getD ""`. -/
def PROMPTS (step : String) : Option String :=
  if step = "Focus Generation" then
    some "You are given the user's story below. Apply the Dilemma Triangle methodology (People, Planet, Prosperity) to extract focus areas.\nFor each driver, produce 1–3 specific focus areas and a short rationale (1–2 sentences).\nReturn only valid JSON and nothing else:\n\x7b\n  \"focuses\": [\n    \x7b\"driver\":\"People\",\"focus\":\"...\",\"rationale\":\"...\"\x7d,\n    \x7b\"driver\":\"Planet\",\"focus\":\"...\",\"rationale\":\"...\"\x7d,\n    \x7b\"driver\":\"Prosperity\",\"focus\":\"...\",\"rationale\":\"...\"\x7d\n  ]\n\x7d"
  else if step = "Issues Generation" then
    some "Given the focus areas (and drivers), list 3–6 issues for each focus area that stem from it.\nReturn only valid JSON and nothing else:\n\x7b\n  \"issues_by_focus\": [\n    \x7b\"focus\":\"...\",\"driver\":\"...\",\"issues\":[\x7b\"issue\":\"...\",\"explain\":\"...\"\x7d]\x7d\n  ]\n\x7d"
  else if step = "Tension Matrix" then
    some "Given the issues across focuses, generate a tension matrix describing conflicts or tradeoffs between issues.\nReturn only valid JSON and nothing else:\n\x7b\n  \"tensions\":[\n    \x7b\"issue_a\":\"...\",\"issue_b\":\"...\",\"tension\":\"...\",\"why\":\"...\"\x7d\n  ]\n\x7d"
  else if step = "Dilemmas & Ranking" then
    some "From the tension matrix, generate dilemmas phrased as tradeoffs.\nEach dilemma should include a title, description, affected drivers, and an importance score (1–10).\nReturn only valid JSON and nothing else:\n\x7b\n  \"dilemmas\":[\n    \x7b\"title\":\"...\",\"description\":\"...\",\"drivers\":[\"People\",\"Planet\"],\"score\":8\x7d\n  ]\n\x7d"
  else if step = "Value Propositions" then
    some "For the top dilemmas, propose 2–5 concrete only 2 or 3 value propositions (solutions) addressing the dilemmas while balancing drivers.\nReturn only valid JSON and nothing else:\n\x7b\n  \"value_propositions\":[\n    \x7b\"title\":\"...\",\"explain\":\"...\",\"dilemmas\":[\"...\"],\"benefits\":[\"...\"]\x7d\n  ]\n\x7d"
  else if step = "SWOT Analysis" then
    some "Perform a SWOT analysis on each provided value proposition.\nReturn only valid JSON and nothing else:\n\x7b\n  \"swot\":[\n    \x7b\"title\":\"...\",\"S\":[\"...\"],\"W\":[\"...\"],\"O\":[\"...\"],\"T\":[\"...\"]\x7d\n  ]\n\x7d"
  else if step = "Business Model Canvas" then
    some "Generate a Business Model Canvas (9 blocks) for each value proposition.\nReturn only valid JSON and nothing else. Make sure to include all 9 blocks with the exact keys:\n- key_partners\n- key_activities\n- key_resources\n- value_propositions\n- customer_relationships\n- channels\n- customer_segments\n- revenue_streams\n- cost_structure\n\nJSON format example:\n\x7b\n  \"bmc\":[\n    \x7b\n      \"value_proposition\":\"<Title of Value Proposition>\",\n      \"canvas\":\x7b\n        \"key_partners\":[\"...\"],\n        \"key_activities\":[\"...\"],\n        \"key_resources\":[\"...\"],\n        \"value_propositions\":[\"...\"],\n        \"customer_relationships\":[\"...\"],\n        \"channels\":[\"...\"],\n        \"customer_segments\":[\"...\"],\n        \"revenue_streams\":[\"...\"],\n        \"cost_structure\":[\"...\"]\n      \x7d\n    \x7d\n  ]\n\x7d"
  else none

/-- `current_step = STEPS[st.session_state.step_index]` (`app.py` line 134). -/
def currentStep (s : PipelineState) : String :=
  STEPS.getD s.step_index ""

/-- `prev_outputs` (`app.py` line 164): the `"\n\n".join` of
`f"### Step: {c['step']}\n{c['response']}"` over the conversation. -/
def prevOutputs (conv : List StageRecord) : String :=
  String.intercalate "\n\n" (conv.map fun c => "### Step: " ++ c.step ++ "\n" ++ c.response)

/-- `final_prompt` (`app.py` line 167): base prompt, then the story context,
then the previous outputs. -/
def buildFinalPrompt (base story_context prev_outputs : String) : String :=
  base ++ "\n\nContext:\n" ++ story_context ++ "\n\nPrevious Outputs:\n" ++ prev_outputs

/-- `refine_prompt` (`app.py` lines 208-211): feedback followed by the
record's current response. -/
def refinePrompt (feedback response : String) : String :=
  "Refine the following output based on this feedback.\n\nFeedback:\n" ++ feedback
    ++ "\n\nOriginal Output:\n" ++ response

/-- Python's `str.strip()` as used by the handlers: drop leading and trailing
whitespace characters.  (Defined over the character list so that concrete
states evaluate inside the kernel.) -/
def strip (text : String) : String :=
  String.mk (((text.data.dropWhile Char.isWhitespace).reverse.dropWhile Char.isWhitespace).reverse)

/-- The spec's `ValidationError`: the rejection taken by `app.py` when the
submitted story or the refinement feedback strips to the empty string
(the `st.warning` branches at lines 156 and 219). -/
inductive CtrlError where
  | validation
deriving DecidableEq

/-- The "Submit Story" handler (`app.py` lines 143-156).  `user_story.strip()`
truthiness is `strip text ≠ ""`; on success the handler stores the stripped
story, appends the stage-0 record with the fixed acknowledgement response,
and increments `step_index`.  The rejected branch (`st.warning`) is the
spec's `ValidationError`. -/
def submitStory (text : String) (s : PipelineState) : Except CtrlError PipelineState :=
  if strip text = "" then
    Except.error CtrlError.validation
  else
    Except.ok
      { s with
        story := strip text,
        conversation := s.conversation ++
          [{ step := "Story Input", prompt := strip text,
             response := "✅ Story saved successfully.", feedback := "" }],
        step_index := s.step_index + 1 }

/-- The generate-if-not-already-done pass (`app.py` lines 163-180): guarded by
`len(conversation) <= step_index`; builds `final_prompt`, calls the backend
once, falls back to the literal `"Error: No valid response."` when the reply
carries no text, and appends the new record with empty feedback. -/
def ensureGenerated (gen : String → Option String) (s : PipelineState) : PipelineState :=
  if s.conversation.length ≤ s.step_index then
    let final_prompt :=
      buildFinalPrompt ((PROMPTS (currentStep s)).getD "") s.story (prevOutputs s.conversation)
    let text_response := (gen final_prompt).getD "Error: No valid response."
    { s with
      conversation := s.conversation ++
        [{ step := currentStep s, prompt := final_prompt,
           response := text_response, feedback := "" }] }
  else s

/-- The "Refine" handler (`app.py` lines 205-219), reachable only for the
record at index `step_index`.  Empty-after-strip feedback is rejected
(`st.warning`, the spec's `ValidationError`); otherwise the backend is called
on `refine_prompt` built from the feedback and the record's current response,
and the record's `response` and `feedback` are overwritten in place.  A reply
without text falls back to the literal `"Error: No refined response."`. -/
def refineStep (feedback : String) (gen : String → Option String) (s : PipelineState) :
    Except CtrlError PipelineState :=
  if strip feedback = "" then
    Except.error CtrlError.validation
  else
    match s.conversation.get? s.step_index with
    | some item =>
        let refined_text :=
          (gen (refinePrompt feedback item.response)).getD "Error: No refined response."
        Except.ok
          { s with
            conversation := s.conversation.set s.step_index
              { item with response := refined_text, feedback := feedback } }
    | none => Except.ok s

/-- The "Approve" handler (`app.py` lines 222-230), reachable only for the
record at index `step_index`: below the last step it increments `step_index`;
at the last step it sets `completed = True`. -/
def approveStep (s : PipelineState) : PipelineState :=
  if s.step_index < s.conversation.length then
    if s.step_index < STEPS.length - 1 then
      { s with step_index := s.step_index + 1 }
    else
      { s with completed := true }
  else s

/-- The four user-driven events of `app.py`.  Generation and refinement carry
the backend oracle `String → Option String` (`none` = the reply has no `text`
attribute) so that distinct calls may behave differently. -/
inductive Op where
  | submitInput (text : String)
  | ensureGenerated (gen : String → Option String)
  | refine (feedback : String) (gen : String → Option String)
  | approve

/-- One script re-run of `app.py` processing one event.  The story form only
exists when `current_step == "Story Input"`; the generation pass, the refine
button and the approve button only exist in the other branch (lines 141/161).
Rejected operations (the `st.warning` branches) leave the state unchanged. -/
def applyOp (op : Op) (s : PipelineState) : PipelineState :=
  match op with
  | Op.submitInput text =>
      if currentStep s = "Story Input" then
        match submitStory text s with
        | Except.ok s2 => s2
        | Except.error _ => s
      else s
  | Op.ensureGenerated gen =>
      if currentStep s = "Story Input" then s else ensureGenerated gen s
  | Op.refine feedback gen =>
      if currentStep s = "Story Input" then s
      else
        match refineStep feedback gen s with
        | Except.ok s2 => s2
        | Except.error _ => s
  | Op.approve =>
      if currentStep s = "Story Input" then s else approveStep s

/-- A sequence of events applied in order. -/
def applyOps : List Op → PipelineState → PipelineState
  | [], s => s
  | op :: rest, s => applyOps rest (applyOp op s)

/-- A pipeline run: a sequence of events starting from the initial state. -/
def runOps (ops : List Op) : PipelineState :=
  applyOps ops initState

/-- In `STEPS` the name `"Story Input"` occurs exactly at index 0, so the
`current_step == "Story Input"` branch test of `app.py` is the test
`step_index == 0`. -/
theorem currentStep_story_iff (s : PipelineState) :
    currentStep s = "Story Input" ↔ s.step_index = 0 := by
  unfold currentStep
  match h : s.step_index with
  | 0 => decide
  | 1 => decide
  | 2 => decide
  | 3 => decide
  | 4 => decide
  | 5 => decide
  | 6 => decide
  | 7 => decide
  | n + 8 =>
      constructor
      · intro hget
        exfalso
        have hlen : STEPS.length ≤ n + 8 := by simp [STEPS]
        rw [List.getD_eq_getElem?_getD, List.getElem?_eq_none hlen] at hget
        exact absurd hget (by decide)
      · intro hzero
        exact absurd hzero (by omega)

/-- Shape lemma: submitting at a non-story step is a no-op. -/
theorem applyOp_submit_not_story {s : PipelineState} {text : String}
    (h : ¬ currentStep s = "Story Input") :
    applyOp (Op.submitInput text) s = s := by
  simp only [applyOp, if_neg h]

/-- Shape lemma: submitting a story that strips to empty is rejected and the
state is unchanged. -/
theorem applyOp_submit_reject {s : PipelineState} {text : String}
    (h : strip text = "") :
    applyOp (Op.submitInput text) s = s := by
  simp only [applyOp, submitStory, if_pos h]
  split <;> rfl

/-- Shape lemma: a successful story submission at the story step. -/
theorem applyOp_submit_accept {s : PipelineState} {text : String}
    (hcur : currentStep s = "Story Input") (h : ¬ strip text = "") :
    applyOp (Op.submitInput text) s =
      { s with
        story := strip text,
        conversation := s.conversation ++
          [{ step := "Story Input", prompt := strip text,
             response := "✅ Story saved successfully.", feedback := "" }],
        step_index := s.step_index + 1 } := by
  simp only [applyOp, submitStory, if_pos hcur, if_neg h]

/-- Shape lemma: the generation event at the story step is a no-op. -/
theorem applyOp_eg_story {s : PipelineState} {gen : String → Option String}
    (hcur : currentStep s = "Story Input") :
    applyOp (Op.ensureGenerated gen) s = s := by
  simp only [applyOp, if_pos hcur]

/-- Shape lemma: the generation event when a record already exists for the
current step (`len(conversation) > step_index`) is a no-op. -/
theorem applyOp_eg_done {s : PipelineState} {gen : String → Option String}
    (h : s.step_index < s.conversation.length) :
    applyOp (Op.ensureGenerated gen) s = s := by
  simp only [applyOp, ensureGenerated, if_neg (by omega : ¬ s.conversation.length ≤ s.step_index)]
  split <;> rfl

/-- Shape lemma: the generation event at a generative step with no record yet
appends exactly one record built from `final_prompt` and the backend reply. -/
theorem applyOp_eg_pending {s : PipelineState} {gen : String → Option String}
    (hcur : ¬ currentStep s = "Story Input") (h : s.conversation.length ≤ s.step_index) :
    applyOp (Op.ensureGenerated gen) s =
      { s with
        conversation := s.conversation ++
          [{ step := currentStep s,
             prompt := buildFinalPrompt ((PROMPTS (currentStep s)).getD "") s.story
               (prevOutputs s.conversation),
             response := (gen (buildFinalPrompt ((PROMPTS (currentStep s)).getD "") s.story
               (prevOutputs s.conversation))).getD "Error: No valid response.",
             feedback := "" }] } := by
  simp only [applyOp, ensureGenerated, if_neg hcur, if_pos h]

/-- Shape lemma: refining at the story step is a no-op. -/
theorem applyOp_refine_story {s : PipelineState} {fb : String}
    {gen : String → Option String} (hcur : currentStep s = "Story Input") :
    applyOp (Op.refine fb gen) s = s := by
  simp only [applyOp, if_pos hcur]

/-- Shape lemma: refining with feedback that strips to empty is rejected and
the state is unchanged. -/
theorem applyOp_refine_reject {s : PipelineState} {fb : String}
    {gen : String → Option String} (h : strip fb = "") :
    applyOp (Op.refine fb gen) s = s := by
  simp only [applyOp, refineStep, if_pos h]
  split <;> rfl

/-- Shape lemma: refining when no record exists at `step_index` is a no-op. -/
theorem applyOp_refine_norec {s : PipelineState} {fb : String}
    {gen : String → Option String} (h : s.conversation.get? s.step_index = none) :
    applyOp (Op.refine fb gen) s = s := by
  by_cases hcur : currentStep s = "Story Input"
  · simp only [applyOp, if_pos hcur]
  · by_cases hfb : strip fb = ""
    · exact applyOp_refine_reject hfb
    · simp only [applyOp, refineStep, if_neg hcur, if_neg hfb, h]

/-- Shape lemma: a successful refinement overwrites `response` and `feedback`
of the record at `step_index` in place. -/
theorem applyOp_refine_some {s : PipelineState} {fb : String}
    {gen : String → Option String} {item : StageRecord}
    (hcur : ¬ currentStep s = "Story Input") (hfb : ¬ strip fb = "")
    (hget : s.conversation.get? s.step_index = some item) :
    applyOp (Op.refine fb gen) s =
      { s with
        conversation := s.conversation.set s.step_index
          { item with
            response := (gen (refinePrompt fb item.response)).getD "Error: No refined response.",
            feedback := fb } } := by
  simp only [applyOp, refineStep, if_neg hcur, if_neg hfb, hget]

/-- Shape lemma: approving at the story step is a no-op. -/
theorem applyOp_approve_story {s : PipelineState}
    (hcur : currentStep s = "Story Input") :
    applyOp Op.approve s = s := by
  simp only [applyOp, if_pos hcur]

/-- Shape lemma: approving when no record exists at `step_index` is a no-op. -/
theorem applyOp_approve_norec {s : PipelineState}
    (h : ¬ s.step_index < s.conversation.length) :
    applyOp Op.approve s = s := by
  simp only [applyOp, approveStep, if_neg h]
  split <;> rfl

/-- Shape lemma: approving a non-final step with a record increments the
cursor and touches nothing else. -/
theorem applyOp_approve_mid {s : PipelineState}
    (hcur : ¬ currentStep s = "Story Input")
    (hrec : s.step_index < s.conversation.length)
    (hlt : s.step_index < STEPS.length - 1) :
    applyOp Op.approve s = { s with step_index := s.step_index + 1 } := by
  simp only [applyOp, approveStep, if_neg hcur, if_pos hrec, if_pos hlt]

/-- Shape lemma: approving the final step with a record sets `completed` and
touches nothing else. -/
theorem applyOp_approve_last {s : PipelineState}
    (hcur : ¬ currentStep s = "Story Input")
    (hrec : s.step_index < s.conversation.length)
    (hge : ¬ s.step_index < STEPS.length - 1) :
    applyOp Op.approve s = { s with completed := true } := by
  simp only [applyOp, approveStep, if_neg hcur, if_pos hrec, if_neg hge]

/-- No event ever removes records: the conversation length is monotone. -/
theorem length_mono (op : Op) (s : PipelineState) :
    s.conversation.length ≤ (applyOp op s).conversation.length := by
  cases op with
  | submitInput text =>
      by_cases hcur : currentStep s = "Story Input"
      · by_cases ht : strip text = ""
        · rw [applyOp_submit_reject ht]
        · rw [applyOp_submit_accept hcur ht]
          simp
      · rw [applyOp_submit_not_story hcur]
  | ensureGenerated gen =>
      by_cases hcur : currentStep s = "Story Input"
      · rw [applyOp_eg_story hcur]
      · by_cases h : s.conversation.length ≤ s.step_index
        · rw [applyOp_eg_pending hcur h]
          simp
        · rw [applyOp_eg_done (by omega)]
  | refine fb gen =>
      by_cases hcur : currentStep s = "Story Input"
      · rw [applyOp_refine_story hcur]
      · by_cases hfb : strip fb = ""
        · rw [applyOp_refine_reject hfb]
        · match hget : s.conversation.get? s.step_index with
          | none => rw [applyOp_refine_norec hget]
          | some item =>
              rw [applyOp_refine_some hcur hfb hget]
              simp
  | approve =>
      by_cases hcur : currentStep s = "Story Input"
      · rw [applyOp_approve_story hcur]
      · by_cases hrec : s.step_index < s.conversation.length
        · by_cases hlt : s.step_index < STEPS.length - 1
          · rw [applyOp_approve_mid hcur hrec hlt]
          · rw [applyOp_approve_last hcur hrec hlt]
        · rw [applyOp_approve_norec hrec]

/-- Setting an index to the element already stored there leaves the list
unchanged. -/
theorem set_of_getElem? {α : Type} {l : List α} {n : Nat} {a : α}
    (h : l[n]? = some a) : l.set n a = l := by
  have hn : n < l.length := by
    rcases List.getElem?_eq_some_iff.mp h with ⟨hlt, _⟩
    exact hlt
  apply List.ext_getElem?
  intro m
  rw [List.getElem?_set]
  by_cases hm : n = m
  · subst hm
    rw [if_pos rfl, if_pos hn, h]
  · rw [if_neg hm]

/-- Overwriting a record in place with one that keeps its `step` name does not
change the list of step names. -/
theorem map_step_set {conv : List StageRecord} {i : Nat} {item : StageRecord}
    (hget : conv.get? i = some item) (resp fbk : String) :
    (conv.set i { item with response := resp, feedback := fbk }).map StageRecord.step
      = conv.map StageRecord.step := by
  rw [List.map_set]
  apply set_of_getElem?
  rw [List.getElem?_map, ← List.get?_eq_getElem?, hget]
  rfl

/-- `STEPS` has eight entries. -/
theorem STEPS_length : STEPS.length = 8 := rfl

/-- The reachable-state invariant of the controller: the log is the cursor's
length or one more, the cursor stays inside the catalog, `completed` only
holds at the last step, at the story step the log is empty, and the log's
step names are exactly the catalog prefix of its length. -/
def CtrlInv (s : PipelineState) : Prop :=
  (s.conversation.length = s.step_index ∨ s.conversation.length = s.step_index + 1)
  ∧ s.step_index < STEPS.length
  ∧ (s.completed = true → s.step_index = STEPS.length - 1)
  ∧ (s.step_index = 0 → s.conversation = [])
  ∧ s.conversation.map StageRecord.step = STEPS.take s.conversation.length

/-- The initial session state satisfies the invariant. -/
theorem inv_init : CtrlInv initState := by
  refine ⟨Or.inl rfl, by decide, ?_, fun _ => rfl, rfl⟩
  intro h
  exact absurd h (by decide)

/-- Every event preserves the invariant. -/
theorem inv_preserve (op : Op) (s : PipelineState) (h : CtrlInv s) : CtrlInv (applyOp op s) := by
  obtain ⟨hA, hD, hB, hC, hE⟩ := h
  rw [STEPS_length] at hD
  cases op with
  | submitInput text =>
      by_cases hcur : currentStep s = "Story Input"
      · by_cases ht : strip text = ""
        · rw [applyOp_submit_reject ht]
          exact ⟨hA, by rw [STEPS_length]; exact hD, hB, hC, hE⟩
        · rw [applyOp_submit_accept hcur ht]
          have h0 : s.step_index = 0 := (currentStep_story_iff s).mp hcur
          have hnil : s.conversation = [] := hC h0
          have hcompf : s.completed = false := by
            cases hcomp : s.completed
            · rfl
            · have := hB hcomp
              rw [STEPS_length, h0] at this
              exact absurd this.symm (by decide)
          refine ⟨?_, ?_, ?_, ?_, ?_⟩
          · dsimp only
            rw [hnil, h0]
            exact Or.inl rfl
          · dsimp only
            rw [STEPS_length, h0]
            decide
          · dsimp only
            rw [hcompf]
            intro hfalse
            exact absurd hfalse (by decide)
          · dsimp only
            intro hcontra
            exact absurd hcontra (by omega)
          · dsimp only
            rw [hnil]
            rfl
      · rw [applyOp_submit_not_story hcur]
        exact ⟨hA, by rw [STEPS_length]; exact hD, hB, hC, hE⟩
  | ensureGenerated gen =>
      by_cases hcur : currentStep s = "Story Input"
      · rw [applyOp_eg_story hcur]
        exact ⟨hA, by rw [STEPS_length]; exact hD, hB, hC, hE⟩
      · by_cases hlen : s.conversation.length ≤ s.step_index
        · rw [applyOp_eg_pending hcur hlen]
          have h0 : ¬ s.step_index = 0 := fun hz => hcur ((currentStep_story_iff s).mpr hz)
          have hexact : s.conversation.length = s.step_index := by omega
          have hDlt : s.step_index < STEPS.length := by rw [STEPS_length]; exact hD
          refine ⟨?_, ?_, ?_, ?_, ?_⟩
          · dsimp only
            rw [List.length_append]
            simp only [List.length_cons, List.length_nil]
            omega
          · dsimp only
            rw [STEPS_length]
            exact hD
          · dsimp only
            exact hB
          · dsimp only
            intro hcontra
            exact absurd hcontra h0
          · dsimp only
            rw [List.map_append, List.length_append]
            simp only [List.map_cons, List.map_nil, List.length_cons, List.length_nil]
            rw [hE, hexact]
            have hstep : currentStep s = STEPS.get ⟨s.step_index, hDlt⟩ := by
              unfold currentStep
              rw [List.getD_eq_getElem?_getD, List.getElem?_eq_getElem hDlt]
              rfl
            rw [List.take_succ, List.getElem?_eq_getElem hDlt, hstep]
            rfl
        · rw [applyOp_eg_done (by omega)]
          exact ⟨hA, by rw [STEPS_length]; exact hD, hB, hC, hE⟩
  | refine fb gen =>
      by_cases hcur : currentStep s = "Story Input"
      · rw [applyOp_refine_story hcur]
        exact ⟨hA, by rw [STEPS_length]; exact hD, hB, hC, hE⟩
      · by_cases hfb : strip fb = ""
        · rw [applyOp_refine_reject hfb]
          exact ⟨hA, by rw [STEPS_length]; exact hD, hB, hC, hE⟩
        · match hget : s.conversation.get? s.step_index with
          | none =>
              rw [applyOp_refine_norec hget]
              exact ⟨hA, by rw [STEPS_length]; exact hD, hB, hC, hE⟩
          | some item =>
              rw [applyOp_refine_some hcur hfb hget]
              have hlt : s.step_index < s.conversation.length := by
                rcases List.getElem?_eq_some_iff.mp
                  (by rw [← List.get?_eq_getElem?]; exact hget) with ⟨hlt2, _⟩
                exact hlt2
              have h0 : ¬ s.step_index = 0 := fun hz => hcur ((currentStep_story_iff s).mpr hz)
              refine ⟨?_, ?_, ?_, ?_, ?_⟩
              · dsimp only
                rw [List.length_set]
                exact hA
              · dsimp only
                rw [STEPS_length]
                exact hD
              · dsimp only
                exact hB
              · dsimp only
                intro hcontra
                exact absurd hcontra h0
              · dsimp only
                rw [List.length_set, map_step_set hget, hE]
  | approve =>
      by_cases hcur : currentStep s = "Story Input"
      · rw [applyOp_approve_story hcur]
        exact ⟨hA, by rw [STEPS_length]; exact hD, hB, hC, hE⟩
      · by_cases hrec : s.step_index < s.conversation.length
        · by_cases hlt : s.step_index < STEPS.length - 1
          · rw [applyOp_approve_mid hcur hrec hlt]
            rw [STEPS_length] at hlt
            refine ⟨?_, ?_, ?_, ?_, ?_⟩
            · dsimp only
              omega
            · dsimp only
              rw [STEPS_length]
              omega
            · dsimp only
              intro hcomp
              have := hB hcomp
              rw [STEPS_length] at this
              omega
            · dsimp only
              intro hcontra
              exact absurd hcontra (by omega)
            · dsimp only
              exact hE
          · rw [applyOp_approve_last hcur hrec hlt]
            rw [STEPS_length] at hlt
            refine ⟨?_, ?_, ?_, ?_, ?_⟩
            · dsimp only
              exact hA
            · dsimp only
              rw [STEPS_length]
              exact hD
            · dsimp only
              intro _
              rw [STEPS_length]
              omega
            · dsimp only
              intro hz
              exact hC hz
            · dsimp only
              exact hE
        · rw [applyOp_approve_norec hrec]
          exact ⟨hA, by rw [STEPS_length]; exact hD, hB, hC, hE⟩

/-- The invariant is preserved by whole event sequences. -/
theorem inv_applyOps (ops : List Op) (s : PipelineState) (h : CtrlInv s) :
    CtrlInv (applyOps ops s) := by
  induction ops generalizing s with
  | nil => exact h
  | cons op rest ih => exact ih (applyOp op s) (inv_preserve op s h)

/-- Every state reachable from the initial state satisfies the invariant. -/
theorem inv_runOps (ops : List Op) : CtrlInv (runOps ops) :=
  inv_applyOps ops initState inv_init

/-- Claim C1: for every sequence of operations starting from the initial
state, the log length equals the cursor or the cursor plus one — never more,
never less — and the generation guard `len(conversation) <= step_index` of
`app.py` holds exactly when the log length equals the cursor. -/
theorem claim_C1_log_cursor_coupling (ops : List Op) :
    ((runOps ops).conversation.length = (runOps ops).step_index
      ∨ (runOps ops).conversation.length = (runOps ops).step_index + 1)
    ∧ ((runOps ops).conversation.length ≤ (runOps ops).step_index
        ↔ (runOps ops).conversation.length = (runOps ops).step_index) := by
  obtain ⟨hA, _, _, _, _⟩ := inv_runOps ops
  exact ⟨hA, by omega⟩

/-- Any single event either leaves the cursor unchanged, or is a story
submission taking it from 0 to 1, or is an approval incrementing it by one. -/
theorem step_index_cases (op : Op) (s : PipelineState) :
    (applyOp op s).step_index = s.step_index
    ∨ (match op with
       | Op.submitInput _ => s.step_index = 0 ∧ (applyOp op s).step_index = 1
       | Op.approve => (applyOp op s).step_index = s.step_index + 1
       | _ => False) := by
  cases op with
  | submitInput text =>
      by_cases hcur : currentStep s = "Story Input"
      · by_cases ht : strip text = ""
        · rw [applyOp_submit_reject ht]
          exact Or.inl rfl
        · rw [applyOp_submit_accept hcur ht]
          have h0 : s.step_index = 0 := (currentStep_story_iff s).mp hcur
          exact Or.inr ⟨h0, by dsimp only; omega⟩
      · rw [applyOp_submit_not_story hcur]
        exact Or.inl rfl
  | ensureGenerated gen =>
      by_cases hcur : currentStep s = "Story Input"
      · rw [applyOp_eg_story hcur]
        exact Or.inl rfl
      · by_cases hlen : s.conversation.length ≤ s.step_index
        · rw [applyOp_eg_pending hcur hlen]
          exact Or.inl rfl
        · rw [applyOp_eg_done (by omega)]
          exact Or.inl rfl
  | refine fb gen =>
      by_cases hcur : currentStep s = "Story Input"
      · rw [applyOp_refine_story hcur]
        exact Or.inl rfl
      · by_cases hfb : strip fb = ""
        · rw [applyOp_refine_reject hfb]
          exact Or.inl rfl
        · match hget : s.conversation.get? s.step_index with
          | none =>
              rw [applyOp_refine_norec hget]
              exact Or.inl rfl
          | some item =>
              rw [applyOp_refine_some hcur hfb hget]
              exact Or.inl rfl
  | approve =>
      by_cases hcur : currentStep s = "Story Input"
      · rw [applyOp_approve_story hcur]
        exact Or.inl rfl
      · by_cases hrec : s.step_index < s.conversation.length
        · by_cases hlt : s.step_index < STEPS.length - 1
          · rw [applyOp_approve_mid hcur hrec hlt]
            exact Or.inr rfl
          · rw [applyOp_approve_last hcur hrec hlt]
            exact Or.inl rfl
        · rw [applyOp_approve_norec hrec]
          exact Or.inl rfl

/-- Claim C7: on reachable states the cursor never decreases and changes only
through story submission (0 to 1) or approval (+1); approving the last step
with its record present sets `completed` and leaves the cursor at the last
index; and once `completed` holds, a further approval changes neither the
cursor nor `completed`. -/
theorem claim_C7_monotonic_cursor (ops : List Op) (op : Op) :
    (runOps ops).step_index ≤ (applyOp op (runOps ops)).step_index
    ∧ (¬ (applyOp op (runOps ops)).step_index = (runOps ops).step_index →
        (match op with
         | Op.submitInput _ =>
             (runOps ops).step_index = 0 ∧ (applyOp op (runOps ops)).step_index = 1
         | Op.approve =>
             (applyOp op (runOps ops)).step_index = (runOps ops).step_index + 1
         | _ => False))
    ∧ ((runOps ops).step_index = STEPS.length - 1 →
        (runOps ops).step_index < (runOps ops).conversation.length →
        applyOp Op.approve (runOps ops) = { runOps ops with completed := true })
    ∧ ((runOps ops).completed = true →
        (applyOp Op.approve (runOps ops)).step_index = (runOps ops).step_index
        ∧ (applyOp Op.approve (runOps ops)).completed = true) := by
  obtain ⟨hA, hD, hB, hC, hE⟩ := inv_runOps ops
  refine ⟨?_, ?_, ?_, ?_⟩
  · rcases step_index_cases op (runOps ops) with heq | hcase
    · omega
    · cases op with
      | submitInput text => omega
      | ensureGenerated gen => exact absurd hcase (by simp)
      | refine fb gen => exact absurd hcase (by simp)
      | approve => omega
  · intro hne
    rcases step_index_cases op (runOps ops) with heq | hcase
    · exact absurd heq hne
    · exact hcase
  · intro hlast hrec
    have h0 : ¬ currentStep (runOps ops) = "Story Input" := by
      rw [currentStep_story_iff]
      rw [STEPS_length] at hlast
      omega
    exact applyOp_approve_last h0 hrec (by omega)
  · intro hcomp
    have hlast := hB hcomp
    have h0 : ¬ currentStep (runOps ops) = "Story Input" := by
      rw [currentStep_story_iff]
      rw [STEPS_length] at hlast
      omega
    by_cases hrec : (runOps ops).step_index < (runOps ops).conversation.length
    · rw [applyOp_approve_last h0 hrec (by omega)]
      exact ⟨rfl, rfl⟩
    · rw [applyOp_approve_norec hrec]
      exact ⟨rfl, hcomp⟩

/-- A complete concrete run: the story is submitted and all seven generative
steps are generated and approved in order. -/
def opsFull : List Op :=
  [Op.submitInput "x",
   Op.ensureGenerated (fun _ => Option.some "r"), Op.approve,
   Op.ensureGenerated (fun _ => Option.some "r"), Op.approve,
   Op.ensureGenerated (fun _ => Option.some "r"), Op.approve,
   Op.ensureGenerated (fun _ => Option.some "r"), Op.approve,
   Op.ensureGenerated (fun _ => Option.some "r"), Op.approve,
   Op.ensureGenerated (fun _ => Option.some "r"), Op.approve,
   Op.ensureGenerated (fun _ => Option.some "r"), Op.approve]

/-- Witness for claim C7 at a concrete completed run. -/
theorem claim_C7_witness :
    (runOps opsFull).completed = true
    ∧ applyOp Op.approve (runOps opsFull) = { runOps opsFull with completed := true }
    ∧ (applyOp Op.approve (runOps opsFull)).step_index = (runOps opsFull).step_index
    ∧ (applyOp Op.approve (runOps opsFull)).completed = true := by
  have h := claim_C7_monotonic_cursor opsFull Op.approve
  have hcomp : (runOps opsFull).completed = true := by decide
  have hlast : (runOps opsFull).step_index = STEPS.length - 1 := by decide
  have hrec : (runOps opsFull).step_index < (runOps opsFull).conversation.length := by decide
  exact ⟨hcomp, h.2.2.1 hlast hrec, (h.2.2.2 hcomp).1, (h.2.2.2 hcomp).2⟩

/-- How many events of a sequence actually fire a backend generation for
stage `k`: an `ensureGenerated` event counts when the script reaches the
generation branch (`current_step != "Story Input"` and
`len(conversation) <= step_index`) with the cursor at `k`. -/
def countGenFires (k : Nat) : List Op → PipelineState → Nat
  | [], _ => 0
  | op :: rest, s =>
      (match op with
       | Op.ensureGenerated _ =>
           if s.step_index = k ∧ ¬ currentStep s = "Story Input"
              ∧ s.conversation.length ≤ s.step_index then 1 else 0
       | _ => 0) + countGenFires k rest (applyOp op s)

/-- Once the log already holds more than `k` records, stage `k` never fires
again (record count is monotone and the guard needs `len ≤ k`). -/
theorem countGenFires_zero (k : Nat) (ops : List Op) :
    ∀ s : PipelineState, k + 1 ≤ s.conversation.length → countGenFires k ops s = 0 := by
  induction ops with
  | nil =>
      intro s _
      rfl
  | cons op rest ih =>
      intro s h
      have htail : countGenFires k rest (applyOp op s) = 0 :=
        ih (applyOp op s) (le_trans h (length_mono op s))
      cases op with
      | ensureGenerated gen =>
          have hnc : ¬ (s.step_index = k ∧ ¬ currentStep s = "Story Input"
              ∧ s.conversation.length ≤ s.step_index) := by
            rintro ⟨h1, -, h3⟩
            omega
          simp only [countGenFires, htail]
          rw [if_neg hnc]
      | submitInput text => simp only [countGenFires, htail]
      | refine fb gen => simp only [countGenFires, htail]
      | approve => simp only [countGenFires, htail]

/-- From any state satisfying the invariant, a run fires the generation
backend at most once for each stage. -/
theorem countGenFires_le_one (k : Nat) (ops : List Op) :
    ∀ s : PipelineState, CtrlInv s → countGenFires k ops s ≤ 1 := by
  induction ops with
  | nil =>
      intro s _
      exact Nat.zero_le 1
  | cons op rest ih =>
      intro s hInv
      have hInv2 := inv_preserve op s hInv
      cases op with
      | ensureGenerated gen =>
          by_cases hcond : s.step_index = k ∧ ¬ currentStep s = "Story Input"
              ∧ s.conversation.length ≤ s.step_index
          · obtain ⟨h1, h2, h3⟩ := hcond
            obtain ⟨hA, -, -, -, -⟩ := hInv
            have hnew : (applyOp (Op.ensureGenerated gen) s).conversation.length = k + 1 := by
              rw [applyOp_eg_pending h2 h3]
              dsimp only
              rw [List.length_append]
              simp only [List.length_cons, List.length_nil]
              omega
            have htail : countGenFires k rest (applyOp (Op.ensureGenerated gen) s) = 0 :=
              countGenFires_zero k rest _ (by omega)
            simp only [countGenFires, htail]
            rw [if_pos ⟨h1, h2, h3⟩]
          · have htail := ih (applyOp (Op.ensureGenerated gen) s) hInv2
            simp only [countGenFires]
            rw [if_neg hcond]
            omega
      | submitInput text =>
          have htail := ih (applyOp (Op.submitInput text) s) hInv2
          simp only [countGenFires]
          omega
      | refine fb gen =>
          have htail := ih (applyOp (Op.refine fb gen) s) hInv2
          simp only [countGenFires]
          omega
      | approve =>
          have htail := ih (applyOp Op.approve s) hInv2
          simp only [countGenFires]
          omega

/-- Claim C2: with a record already present for the current stage the
generation event is a no-op, a second generation event right after a first
one leaves the state of the first (idempotence, whatever either backend call
returns), and in any run from the initial state each stage fires the backend
at most once. -/
theorem claim_C2_ensureGenerated_idempotent (ops : List Op)
    (g1 g2 : String → Option String) :
    applyOp (Op.ensureGenerated g2) (applyOp (Op.ensureGenerated g1) (runOps ops))
      = applyOp (Op.ensureGenerated g1) (runOps ops)
    ∧ ((runOps ops).step_index < (runOps ops).conversation.length →
        applyOp (Op.ensureGenerated g1) (runOps ops) = runOps ops)
    ∧ (∀ k : Nat, countGenFires k ops initState ≤ 1) := by
  obtain ⟨hA, hD, hB, hC, hE⟩ := inv_runOps ops
  refine ⟨?_, ?_, ?_⟩
  · by_cases hcur : currentStep (runOps ops) = "Story Input"
    · rw [applyOp_eg_story hcur, applyOp_eg_story hcur]
    · by_cases hlen : (runOps ops).conversation.length ≤ (runOps ops).step_index
      · rw [applyOp_eg_pending hcur hlen]
        apply applyOp_eg_done
        dsimp only
        rw [List.length_append]
        simp only [List.length_cons, List.length_nil]
        omega
      · rw [@applyOp_eg_done (runOps ops) g1 (by omega),
            @applyOp_eg_done (runOps ops) g2 (by omega)]
  · intro hlt
    exact applyOp_eg_done hlt
  · intro k
    exact countGenFires_le_one k ops initState inv_init

/-- Witness for claim C2: after submitting the story and generating stage 1,
a further generation event is a no-op. -/
theorem claim_C2_witness :
    (runOps [Op.submitInput "x", Op.ensureGenerated (fun _ => Option.some "rA")]).step_index
      < (runOps [Op.submitInput "x",
          Op.ensureGenerated (fun _ => Option.some "rA")]).conversation.length
    ∧ applyOp (Op.ensureGenerated (fun _ => Option.some "rB"))
        (runOps [Op.submitInput "x", Op.ensureGenerated (fun _ => Option.some "rA")])
      = runOps [Op.submitInput "x", Op.ensureGenerated (fun _ => Option.some "rA")] := by
  have h := claim_C2_ensureGenerated_idempotent
    [Op.submitInput "x", Op.ensureGenerated (fun _ => Option.some "rA")]
    (fun _ => Option.some "rB") (fun _ => Option.some "rB")
  have hlt : (runOps [Op.submitInput "x",
      Op.ensureGenerated (fun _ => Option.some "rA")]).step_index
      < (runOps [Op.submitInput "x",
          Op.ensureGenerated (fun _ => Option.some "rA")]).conversation.length := by decide
  exact ⟨hlt, h.2.1 hlt⟩

/-- A concrete run reaching the last step with its record still pending: the
story plus six generated-and-approved steps. -/
def opsToLast : List Op :=
  [Op.submitInput "x",
   Op.ensureGenerated (fun _ => Option.some "r"), Op.approve,
   Op.ensureGenerated (fun _ => Option.some "r"), Op.approve,
   Op.ensureGenerated (fun _ => Option.some "r"), Op.approve,
   Op.ensureGenerated (fun _ => Option.some "r"), Op.approve,
   Op.ensureGenerated (fun _ => Option.some "r"), Op.approve,
   Op.ensureGenerated (fun _ => Option.some "r"), Op.approve]

/-- Counterexample to claim C3 as stated: at the last generative stage
("Business Model Canvas", cursor 7) a failed generation still stores the
error marker, but approving that stage does not advance the cursor — it
stays at 7 while `completed` is set. -/
theorem claim_C3_counterexample :
    ((applyOp (Op.ensureGenerated (fun _ => Option.none)) (runOps opsToLast)).conversation.getLast?).map
        StageRecord.response = some "Error: No valid response."
    ∧ (applyOp Op.approve
        (applyOp (Op.ensureGenerated (fun _ => Option.none)) (runOps opsToLast))).step_index
      = (applyOp (Op.ensureGenerated (fun _ => Option.none)) (runOps opsToLast)).step_index
    ∧ ¬ ((applyOp Op.approve
        (applyOp (Op.ensureGenerated (fun _ => Option.none)) (runOps opsToLast))).step_index
      = (applyOp (Op.ensureGenerated (fun _ => Option.none)) (runOps opsToLast)).step_index + 1) := by
  refine ⟨?_, ?_, ?_⟩ <;> decide

/-- Approving a non-story step that has its record, below the last step,
advances the cursor by one. -/
theorem approve_advances {s : PipelineState} (h0 : ¬ s.step_index = 0)
    (hrec : s.step_index < s.conversation.length)
    (hlt : s.step_index < STEPS.length - 1) :
    (applyOp Op.approve s).step_index = s.step_index + 1 := by
  rw [applyOp_approve_mid (fun hc => h0 ((currentStep_story_iff s).mp hc)) hrec hlt]

/-- Approving the last step when it has its record sets `completed` and keeps
the cursor. -/
theorem approve_last_completes {s : PipelineState} (h0 : ¬ s.step_index = 0)
    (hrec : s.step_index < s.conversation.length)
    (hge : ¬ s.step_index < STEPS.length - 1) :
    (applyOp Op.approve s).completed = true
    ∧ (applyOp Op.approve s).step_index = s.step_index := by
  rw [applyOp_approve_last (fun hc => h0 ((currentStep_story_iff s).mp hc)) hrec hge]
  exact ⟨rfl, rfl⟩

/-- Claim C3 (amended): when the backend yields no usable text the controller
does not raise — it appends a record whose response is the literal
`"Error: No valid response."`, keeps the cursor, and approval of that stage
still succeeds: below the last stage it advances the cursor by one, at the
last stage it sets `completed` with the cursor unchanged. -/
theorem claim_C3_generation_failure (ops : List Op)
    (h0 : ¬ (runOps ops).step_index = 0)
    (hlen : (runOps ops).conversation.length = (runOps ops).step_index) :
    (applyOp (Op.ensureGenerated (fun _ => Option.none)) (runOps ops)).conversation.length
      = (runOps ops).step_index + 1
    ∧ ((applyOp (Op.ensureGenerated (fun _ => Option.none)) (runOps ops)).conversation.getLast?).map
        StageRecord.response = some "Error: No valid response."
    ∧ (applyOp (Op.ensureGenerated (fun _ => Option.none)) (runOps ops)).step_index
      = (runOps ops).step_index
    ∧ ((runOps ops).step_index < STEPS.length - 1 →
        (applyOp Op.approve
          (applyOp (Op.ensureGenerated (fun _ => Option.none)) (runOps ops))).step_index
        = (runOps ops).step_index + 1)
    ∧ ((runOps ops).step_index = STEPS.length - 1 →
        (applyOp Op.approve
          (applyOp (Op.ensureGenerated (fun _ => Option.none)) (runOps ops))).completed = true
        ∧ (applyOp Op.approve
            (applyOp (Op.ensureGenerated (fun _ => Option.none)) (runOps ops))).step_index
          = (runOps ops).step_index) := by
  have hcur : ¬ currentStep (runOps ops) = "Story Input" := by
    rw [currentStep_story_iff]
    exact h0
  have hle : (runOps ops).conversation.length ≤ (runOps ops).step_index := by omega
  have hidx1 : (applyOp (Op.ensureGenerated (fun _ => Option.none)) (runOps ops)).step_index
      = (runOps ops).step_index := by
    rw [applyOp_eg_pending hcur hle]
  have hlen1 : (applyOp (Op.ensureGenerated (fun _ => Option.none)) (runOps ops)).conversation.length
      = (runOps ops).step_index + 1 := by
    rw [applyOp_eg_pending hcur hle]
    dsimp only
    rw [List.length_append]
    simp only [List.length_cons, List.length_nil]
    omega
  have h01 : ¬ (applyOp (Op.ensureGenerated (fun _ => Option.none)) (runOps ops)).step_index = 0 := by
    rw [hidx1]
    exact h0
  have hrec1 : (applyOp (Op.ensureGenerated (fun _ => Option.none)) (runOps ops)).step_index
      < (applyOp (Op.ensureGenerated (fun _ => Option.none)) (runOps ops)).conversation.length := by
    rw [hidx1, hlen1]
    omega
  refine ⟨hlen1, ?_, hidx1, ?_, ?_⟩
  · rw [applyOp_eg_pending hcur hle]
    dsimp only
    rw [List.getLast?_concat]
    rfl
  · intro hbelow
    rw [approve_advances h01 hrec1 (by rw [hidx1]; exact hbelow), hidx1]
  · intro hlast
    have h := approve_last_completes h01 hrec1 (by rw [hidx1]; omega)
    exact ⟨h.1, by rw [h.2, hidx1]⟩

/-- Witness for the amended claim C3: the first generative stage with a
failing backend stores the error marker and is then approved past. -/
theorem claim_C3_witness :
    (applyOp (Op.ensureGenerated (fun _ => Option.none))
        (runOps [Op.submitInput "x"])).conversation.length
      = (runOps [Op.submitInput "x"]).step_index + 1
    ∧ ((applyOp (Op.ensureGenerated (fun _ => Option.none))
        (runOps [Op.submitInput "x"])).conversation.getLast?).map
        StageRecord.response = some "Error: No valid response."
    ∧ (applyOp Op.approve
        (applyOp (Op.ensureGenerated (fun _ => Option.none))
          (runOps [Op.submitInput "x"]))).step_index
      = (runOps [Op.submitInput "x"]).step_index + 1 := by
  have h := claim_C3_generation_failure [Op.submitInput "x"] (by decide) (by decide)
  exact ⟨h.1, h.2.1, h.2.2.2.1 (by decide)⟩

/-- In a duplicate-free list of names, exactly one entry matches a member. -/
theorem countP_eq_one_of_nodup {l : List String} {name : String}
    (hnd : l.Nodup) (hmem : name ∈ l) :
    l.countP (fun x => x == name) = 1 := by
  induction l with
  | nil => cases hmem
  | cons a t ih =>
      obtain ⟨hnotin, hndt⟩ := List.nodup_cons.mp hnd
      rw [List.countP_cons]
      rcases List.mem_cons.mp hmem with heq | hmem2
      · subst heq
        have hzero : t.countP (fun x => x == name) = 0 := by
          rw [List.countP_eq_zero]
          intro b hb
          simp only [beq_iff_eq]
          intro hba
          exact hnotin (hba ▸ hb)
        rw [hzero, if_pos (by simp)]
      · have hone := ih hndt hmem2
        have hna : ¬ ((a == name) = true) := by
          simp only [beq_iff_eq]
          intro haeq
          exact hnotin (haeq ▸ hmem2)
        rw [hone, if_neg hna]

/-- Counting records by step name equals counting names in the step-name
projection of the log. -/
theorem countP_step_eq (name : String) (l : List StageRecord) :
    l.countP (fun r => r.step == name) = (l.map StageRecord.step).countP (fun x => x == name) := by
  rw [List.countP_map]
  rfl

/-- On a reachable state, the record at the cursor is the only record bearing
its step name (the log's names are a duplicate-free catalog prefix). -/
theorem record_count_one (ops : List Op)
    (hlt : (runOps ops).step_index < (runOps ops).conversation.length) :
    (runOps ops).conversation.countP
      (fun r => r.step == ((runOps ops).conversation.get
        ⟨(runOps ops).step_index, hlt⟩).step) = 1 := by
  obtain ⟨hA, hD, hB, hC, hE⟩ := inv_runOps ops
  rw [countP_step_eq, hE]
  apply countP_eq_one_of_nodup
  · exact List.Nodup.sublist (List.take_sublist _ _) (by decide)
  · have hmem : ((runOps ops).conversation.get
        ⟨(runOps ops).step_index, hlt⟩).step
        ∈ (runOps ops).conversation.map StageRecord.step :=
      List.mem_map_of_mem StageRecord.step (List.get_mem _ _ _)
    rw [hE] at hmem
    exact hmem

/-- Claim C4: with a record present at the cursor and non-empty feedback, the
refine handler calls the backend on the refinement prompt built from the
feedback and the record's current response, and overwrites only that record's
`response` (backend output) and `feedback` (the submitted text) in place: no
record is appended or deleted, the cursor is unchanged, and the record count
for that stage stays exactly one. -/
theorem claim_C4_refine_overwrites (ops : List Op) (fb txt : String)
    (gen : String → Option String)
    (hlt : (runOps ops).step_index < (runOps ops).conversation.length)
    (hfb : ¬ strip fb = "")
    (hg : gen (refinePrompt fb ((runOps ops).conversation.get
        ⟨(runOps ops).step_index, hlt⟩).response) = some txt) :
    applyOp (Op.refine fb gen) (runOps ops)
      = { runOps ops with
          conversation := (runOps ops).conversation.set (runOps ops).step_index
            { (runOps ops).conversation.get ⟨(runOps ops).step_index, hlt⟩ with
              response := txt, feedback := fb } }
    ∧ (applyOp (Op.refine fb gen) (runOps ops)).conversation.length
      = (runOps ops).conversation.length
    ∧ (applyOp (Op.refine fb gen) (runOps ops)).step_index = (runOps ops).step_index
    ∧ (runOps ops).conversation.countP
        (fun r => r.step == ((runOps ops).conversation.get
          ⟨(runOps ops).step_index, hlt⟩).step) = 1
    ∧ (applyOp (Op.refine fb gen) (runOps ops)).conversation.countP
        (fun r => r.step == ((runOps ops).conversation.get
          ⟨(runOps ops).step_index, hlt⟩).step) = 1 := by
  obtain ⟨hA, hD, hB, hC, hE⟩ := inv_runOps ops
  have h0 : ¬ (runOps ops).step_index = 0 := by
    intro hz
    have hz2 : (runOps ops).conversation.length = 0 := by
      rw [hC hz]
      rfl
    omega
  have hcur : ¬ currentStep (runOps ops) = "Story Input" := by
    rw [currentStep_story_iff]
    exact h0
  have hget : (runOps ops).conversation.get? (runOps ops).step_index
      = some ((runOps ops).conversation.get ⟨(runOps ops).step_index, hlt⟩) := by
    rw [List.get?_eq_getElem?, List.getElem?_eq_getElem hlt]
    rfl
  have hmain : applyOp (Op.refine fb gen) (runOps ops)
      = { runOps ops with
          conversation := (runOps ops).conversation.set (runOps ops).step_index
            { (runOps ops).conversation.get ⟨(runOps ops).step_index, hlt⟩ with
              response := txt, feedback := fb } } := by
    rw [applyOp_refine_some hcur hfb hget, hg]
    rfl
  have hcnt := record_count_one ops hlt
  refine ⟨hmain, ?_, ?_, hcnt, ?_⟩
  · rw [hmain]
    dsimp only
    rw [List.length_set]
  · rw [hmain]
  · rw [hmain]
    dsimp only
    rw [countP_step_eq, map_step_set hget txt fb, ← countP_step_eq]
    exact hcnt


/-- Witness for claim C4: refining the generated first stage with feedback
`"shorter"` keeps the log length and the cursor. -/
theorem claim_C4_witness :
    (applyOp (Op.refine "shorter" (fun _ => Option.some "rA2"))
        (runOps [Op.submitInput "x",
          Op.ensureGenerated (fun _ => Option.some "rA")])).conversation.length
      = (runOps [Op.submitInput "x",
          Op.ensureGenerated (fun _ => Option.some "rA")]).conversation.length
    ∧ (applyOp (Op.refine "shorter" (fun _ => Option.some "rA2"))
        (runOps [Op.submitInput "x",
          Op.ensureGenerated (fun _ => Option.some "rA")])).step_index
      = (runOps [Op.submitInput "x",
          Op.ensureGenerated (fun _ => Option.some "rA")]).step_index := by
  have hlt : (runOps [Op.submitInput "x",
      Op.ensureGenerated (fun _ => Option.some "rA")]).step_index
      < (runOps [Op.submitInput "x",
          Op.ensureGenerated (fun _ => Option.some "rA")]).conversation.length := by decide
  have h := claim_C4_refine_overwrites
    [Op.submitInput "x", Op.ensureGenerated (fun _ => Option.some "rA")]
    "shorter" "rA2" (fun _ => Option.some "rA2") hlt (by decide) rfl
  exact ⟨h.2.1, h.2.2.1⟩

/-- Claim C5: an empty or whitespace-only story, and empty feedback, are
rejected with `ValidationError` and leave the whole state unchanged; the
result does not depend on the backend oracle, so no backend call is made. -/
theorem claim_C5_validation_rejects (s : PipelineState) (text fb : String)
    (gen : String → Option String)
    (htext : strip text = "") (hfb : strip fb = "") :
    submitStory text s = Except.error CtrlError.validation
    ∧ applyOp (Op.submitInput text) s = s
    ∧ refineStep fb gen s = Except.error CtrlError.validation
    ∧ applyOp (Op.refine fb gen) s = s
    ∧ (∀ gen2 : String → Option String,
        applyOp (Op.refine fb gen2) s = applyOp (Op.refine fb gen) s) := by
  refine ⟨?_, applyOp_submit_reject htext, ?_, applyOp_refine_reject hfb, ?_⟩
  · unfold submitStory
    rw [if_pos htext]
  · unfold refineStep
    rw [if_pos hfb]
  · intro gen2
    rw [applyOp_refine_reject hfb, applyOp_refine_reject hfb]

/-- Witness for claim C5 at the initial state with a whitespace-only story
and empty feedback. -/
theorem claim_C5_witness :
    submitStory "   " initState = Except.error CtrlError.validation
    ∧ applyOp (Op.submitInput "   ") initState = initState
    ∧ refineStep "" (fun _ => Option.none) initState = Except.error CtrlError.validation
    ∧ applyOp (Op.refine "" (fun _ => Option.none)) initState = initState := by
  have h := claim_C5_validation_rejects initState "   " ""
    (fun _ => Option.none) (by decide) (by decide)
  exact ⟨h.1, h.2.1, h.2.2.1, h.2.2.2.1⟩

/-- Claim C9: a successful story submission stores the stripped text (not the
raw text) as both the story and the stage-0 record's prompt, with the fixed
acknowledgement response and empty feedback. -/
theorem claim_C9_submit_stores_stripped (ops : List Op) (text : String)
    (h0 : (runOps ops).step_index = 0) (ht : ¬ strip text = "") :
    (applyOp (Op.submitInput text) (runOps ops)).story = strip text
    ∧ (applyOp (Op.submitInput text) (runOps ops)).conversation
      = [{ step := "Story Input", prompt := strip text,
           response := "✅ Story saved successfully.", feedback := "" }]
    ∧ (applyOp (Op.submitInput text) (runOps ops)).step_index = 1 := by
  obtain ⟨hA, hD, hB, hC, hE⟩ := inv_runOps ops
  have hcur : currentStep (runOps ops) = "Story Input" := (currentStep_story_iff _).mpr h0
  have hnil : (runOps ops).conversation = [] := hC h0
  rw [applyOp_submit_accept hcur ht]
  refine ⟨rfl, ?_, ?_⟩
  · dsimp only
    rw [hnil]
    rfl
  · dsimp only
    rw [h0]

/-- Witness for claim C9: submitting `"  hello  "` from the initial state. -/
theorem claim_C9_witness :
    (applyOp (Op.submitInput "  hello  ") (runOps [])).story = strip "  hello  "
    ∧ (applyOp (Op.submitInput "  hello  ") (runOps [])).conversation
      = [{ step := "Story Input", prompt := strip "  hello  ",
           response := "✅ Story saved successfully.", feedback := "" }]
    ∧ (applyOp (Op.submitInput "  hello  ") (runOps [])).step_index = 1 := by
  have h := claim_C9_submit_stores_stripped [] "  hello  " (by decide) (by decide)
  exact ⟨h.1, h.2.1, h.2.2⟩

/-- Claim C10: when a refine call's backend reply carries no usable text, the
record's response is set to the distinct literal `"Error: No refined
response."` (not the generation marker) and its feedback is still overwritten
with the submitted feedback. -/
theorem claim_C10_refine_error_marker (s : PipelineState) (fb : String)
    (hlt : s.step_index < s.conversation.length)
    (hcur : ¬ currentStep s = "Story Input")
    (hfb : ¬ strip fb = "") :
    ((applyOp (Op.refine fb (fun _ => Option.none)) s).conversation.get?
        s.step_index).map StageRecord.response = some "Error: No refined response."
    ∧ ((applyOp (Op.refine fb (fun _ => Option.none)) s).conversation.get?
        s.step_index).map StageRecord.feedback = some fb
    ∧ ¬ ("Error: No refined response." = "Error: No valid response.") := by
  have hget : s.conversation.get? s.step_index
      = some (s.conversation.get ⟨s.step_index, hlt⟩) := by
    rw [List.get?_eq_getElem?, List.getElem?_eq_getElem hlt]
    rfl
  rw [applyOp_refine_some hcur hfb hget]
  dsimp only
  rw [List.get?_eq_getElem?, List.getElem?_set_self hlt]
  exact ⟨rfl, rfl, by decide⟩

/-- Witness for claim C10: refining the generated first stage while the
backend returns no text. -/
theorem claim_C10_witness :
    ((applyOp (Op.refine "use fewer words" (fun _ => Option.none))
        (runOps [Op.submitInput "x",
          Op.ensureGenerated (fun _ => Option.some "rA")])).conversation.get?
        (runOps [Op.submitInput "x",
          Op.ensureGenerated (fun _ => Option.some "rA")]).step_index).map
      StageRecord.response = some "Error: No refined response."
    ∧ ((applyOp (Op.refine "use fewer words" (fun _ => Option.none))
        (runOps [Op.submitInput "x",
          Op.ensureGenerated (fun _ => Option.some "rA")])).conversation.get?
        (runOps [Op.submitInput "x",
          Op.ensureGenerated (fun _ => Option.some "rA")]).step_index).map
      StageRecord.feedback = some "use fewer words" := by
  have h := claim_C10_refine_error_marker
    (runOps [Op.submitInput "x", Op.ensureGenerated (fun _ => Option.some "rA")])
    "use fewer words" (by decide) (by decide) (by decide)
  exact ⟨h.1, h.2.1⟩

/-- Counterexample to claim C8 as stated: the `STEPS` catalog of the code has
eight stages, not nine, its last stage is "Business Model Canvas", and no
business-plan stage exists. -/
theorem claim_C8_counterexample :
    STEPS.length = 8 ∧ ¬ STEPS.length = 9
    ∧ STEPS.getLast? = some "Business Model Canvas"
    ∧ ¬ ("Business Plan" ∈ STEPS) := by decide

/-- Claim C8 (amended): the fixed stage catalog consists of exactly eight
stages in the order story input, focus generation, issues, tensions,
dilemmas, value propositions, SWOT, business model canvas — with no
business-plan stage after the Business Model Canvas. -/
theorem claim_C8_stage_catalog :
    STEPS = ["Story Input", "Focus Generation", "Issues Generation",
      "Tension Matrix", "Dilemmas & Ranking", "Value Propositions",
      "SWOT Analysis", "Business Model Canvas"] := rfl

/-- Modelled from the spec: the app variant carrying the branch-selection
side channel (spec §3 `branch_selection`, §4.2 `selectBranch`) is not among
the files under `src/` — the spec's corpus has five app variants and only two
are present.  Per spec §3 the pipeline state additionally holds an optional
user-chosen sub-item of a prior stage's structured output, kept here in its
serialized (string) form. -/
structure BranchPipelineState where
  step_index : Nat
  conversation : List StageRecord
  story : String
  completed : Bool
  branch_selection : Option String
deriving DecidableEq

/-- Modelled from the spec (§4.2): `selectBranch(item)` sets
`branch_selection = item` and nothing else; last write wins. -/
def selectBranch (item : String) (s : BranchPipelineState) : BranchPipelineState :=
  { s with branch_selection := some item }

/-- Modelled from the spec (§4.1): prompt construction substitutes the
serialized `branch_selection` in place of the prior-outputs concatenation
when a selection is present, and otherwise uses the prior outputs. -/
def branchFinalPrompt (s : BranchPipelineState) : String :=
  buildFinalPrompt ((PROMPTS (STEPS.getD s.step_index "")).getD "") s.story
    (match s.branch_selection with
     | some item => item
     | none => prevOutputs s.conversation)

/-- Claim C6: `selectBranch(item)` sets `branch_selection` without changing
cursor or log, and prompt construction substitutes the selection's serialized
form for the prior-outputs concatenation exactly when a selection is set. -/
theorem claim_C6_select_branch (s : BranchPipelineState) (item : String) :
    (selectBranch item s).step_index = s.step_index
    ∧ (selectBranch item s).conversation = s.conversation
    ∧ (selectBranch item s).branch_selection = some item
    ∧ branchFinalPrompt (selectBranch item s)
      = buildFinalPrompt ((PROMPTS (STEPS.getD s.step_index "")).getD "") s.story item
    ∧ (s.branch_selection = none →
        branchFinalPrompt s
        = buildFinalPrompt ((PROMPTS (STEPS.getD s.step_index "")).getD "") s.story
            (prevOutputs s.conversation)) := by
  refine ⟨rfl, rfl, rfl, rfl, ?_⟩
  intro hnone
  unfold branchFinalPrompt
  rw [hnone]

/-- Witness for claim C6 at a concrete state after the SWOT stage. -/
theorem claim_C6_witness :
    branchFinalPrompt
      { step_index := 7, conversation := [], story := "x",
        completed := false, branch_selection := Option.none }
      = buildFinalPrompt ((PROMPTS (STEPS.getD 7 "")).getD "") "x" (prevOutputs [])
    ∧ (selectBranch "selected swot entry"
        { step_index := 7, conversation := [], story := "x",
          completed := false, branch_selection := Option.none }).branch_selection
      = some "selected swot entry" := by
  have h := claim_C6_select_branch
    { step_index := 7, conversation := [], story := "x",
      completed := false, branch_selection := Option.none } "selected swot entry"
  exact ⟨h.2.2.2.2 rfl, h.2.2.1⟩

/-- Witness for claim C1 at a concrete one-event run. -/
theorem claim_C1_witness :
    ((runOps [Op.submitInput "x"]).conversation.length
        = (runOps [Op.submitInput "x"]).step_index
      ∨ (runOps [Op.submitInput "x"]).conversation.length
        = (runOps [Op.submitInput "x"]).step_index + 1)
    ∧ ((runOps [Op.submitInput "x"]).conversation.length
        ≤ (runOps [Op.submitInput "x"]).step_index
      ↔ (runOps [Op.submitInput "x"]).conversation.length
        = (runOps [Op.submitInput "x"]).step_index) :=
  claim_C1_log_cursor_coupling [Op.submitInput "x"]
